import Mathlib

/-!
Verification development for the manga-mapper repository.

The JavaScript sources are shallowly embedded: JS strings are `String`
(lists of characters), JS numbers holding similarity scores are `ℚ`,
JS arrays are `List`, a JS `Map`/`Set` is an insertion-ordered
association list / duplicate-free list, and a function that can throw is
`Except JsError`.  Network access is abstracted: a provider `search`
function becomes an explicit function argument, and a fetched document is
abstracted to the lists of regex matches that each extraction strategy
would recover from it (the per-strategy match lists are the inputs of the
embedded pipeline).
-/

namespace MangaMapper

/-! ## Similarity scorer (src/src/providers/mapper.js, stringSimilarity / editDistance)

The section `editDistance` of mapper.js is the classic one-row
Wagner-Fischer loop:

    editDistance(s1, s2) {
      s1 = s1.toLowerCase(); s2 = s2.toLowerCase();
      const costs = [];
      for (let i = 0; i <= s1.length; i++) {
        let lastValue = i;
        for (let j = 0; j <= s2.length; j++) {
          if (i === 0) { costs[j] = j; }
          else if (j > 0) {
            let newValue = costs[j - 1];
            if (s1.charAt(i - 1) !== s2.charAt(j - 1)) {
              newValue = Math.min(Math.min(newValue, lastValue), costs[j]) + 1;
            }
            costs[j - 1] = lastValue;
            lastValue = newValue;
          }
        }
        if (i > 0) costs[s2.length] = lastValue;
      }
      return costs[s2.length];
    }

The `i = 0` iteration writes `costs = [0, 1, ..., s2.length]`
(`List.range (s2.length + 1)`).  Each later iteration `i` walks `j` from
`1` to `s2.length`, reading the previous-row entries `costs[j-1]`
(the diagonal) and `costs[j]` (the cell above) and overwriting `costs[j-1]`
with the new-row value `lastValue`; after the walk it stores the final
`lastValue` into `costs[s2.length]`.  `jsInner` below is that walk written
structurally: it consumes the remaining column characters together with the
not-yet-overwritten previous-row cells, emitting the new row; the
final catch-all case drops the leftover old last cell, exactly as the
post-loop write `costs[s2.length] = lastValue` does. -/

/-- Inner `j`-loop of `editDistance` for one row `i ≥ 1`: `c` is
`s1.charAt(i-1)`, the list argument is the remaining suffix of `s2`, the
`List Nat` is the matching suffix of the previous row (`costs[j-1 ..]`),
and `lastValue` is the new-row value of the previous column. -/
def jsInner (c : Char) : List Char → List Nat → Nat → List Nat
  | y :: ys, d :: rest, lastValue =>
    let newValue := if c ≠ y then min (min d lastValue) (rest.headD 0) + 1 else d
    lastValue :: jsInner c ys rest newValue
  | _, _, lastValue => [lastValue]

/-- Outer `i`-loop of `editDistance`: runs `jsInner` once per remaining
character of `s1`, threading the row and the row number `i`. -/
def jsOuter (s2 : List Char) : List Char → Nat → List Nat → List Nat
  | [], _, costs => costs
  | c :: cs, i, costs => jsOuter s2 cs (i + 1) (jsInner c s2 costs i)

/-- Model of `String.prototype.toLowerCase` (character-wise case fold). -/
def jsToLowerCase (s : String) : String :=
  String.mk (s.data.map Char.toLower)

/-- `Mapper.editDistance` from mapper.js: lower-case both inputs, run the
row loop starting from row `[0, 1, ..., s2.length]`, and read
`costs[s2.length]`. -/
def editDistance (s1 s2 : String) : Nat :=
  let t1 := (jsToLowerCase s1).data
  let t2 := (jsToLowerCase s2).data
  (jsOuter t2 t1 1 (List.range (t2.length + 1))).getD t2.length 0

/-- The `longer` const of `stringSimilarity`:
`s1.length >= s2.length ? s1.toLowerCase() : s2.toLowerCase()`. -/
def simLonger (s1 s2 : String) : String :=
  if s2.length ≤ s1.length then jsToLowerCase s1 else jsToLowerCase s2

/-- The `shorter` const of `stringSimilarity`. -/
def simShorter (s1 s2 : String) : String :=
  if s2.length ≤ s1.length then jsToLowerCase s2 else jsToLowerCase s1

/-- `Mapper.stringSimilarity` from mapper.js.  `!s1 || !s2` is JS
falsiness: for strings it holds exactly when the string is empty.
The JS consts `longer`, `shorter` and `longerLength` are the definitions
`simLonger`, `simShorter` and `(simLonger s1 s2).length`. -/
def stringSimilarity (s1 s2 : String) : ℚ :=
  if s1 = "" ∨ s2 = "" then 0
  else if (simLonger s1 s2).length = 0 then 1
  else (((simLonger s1 s2).length : ℚ) - (editDistance (simLonger s1 s2) (simShorter s1 s2) : ℚ))
      / ((simLonger s1 s2).length : ℚ)

/-- Classic Levenshtein distance with unit insertion, deletion and
substitution costs, by its textbook recurrence.  This is the
specification-side definition used to judge `editDistance`. -/
def lev : List Char → List Char → Nat
  | [], ys => ys.length
  | _ :: xs, [] => xs.length + 1
  | x :: xs, y :: ys =>
    if x = y then lev xs ys
    else 1 + min (lev xs ys) (min (lev (x :: xs) ys) (lev xs (y :: ys)))
termination_by xs ys => xs.length + ys.length
decreasing_by all_goals simp_arith

/-- Specification of one dynamic-programming row: the distances from `p`
to `r` extended by every prefix of `q` (entry `j` is the distance from
`p` to `r ++ q.take j`). -/
def levRow (p r q : List Char) : List Nat :=
  (List.range (q.length + 1)).map (fun j => lev p (r ++ q.take j))

/-! ## Match selector (mapper.js `findBestMatch`, two versions) -/

/-- A provider search result as consumed by `findBestMatch` (only `id`
and `title` are used by the matching code). -/
structure Candidate where
  id : String
  title : String
deriving Repr, DecidableEq

/-- A thrown JS exception: either the `TypeError` raised by reading a
property of `undefined`, or an `Error` with its message. -/
inductive JsError where
  | typeErrorUndefined
  | thrown (msg : String)
deriving Repr, DecidableEq

/-- One comparison step of the best-match scan: `(bestMatch,
highestSimilarity)` is replaced when the new similarity is strictly
greater (`if (similarity > highestSimilarity)`). -/
def scanStep (st : Option Candidate × ℚ) (p : Candidate × ℚ) : Option Candidate × ℚ :=
  if st.2 < p.2 then (some p.1, p.2) else st

/-- First scanning phase of `findBestMatch`: every candidate against the
main title, starting from `(null, 0)`. -/
def bestScanTitle (results : List Candidate) (title : String) : Option Candidate × ℚ :=
  results.foldl (fun st manga => scanStep st (manga, stringSimilarity manga.title title))
    (none, 0)

/-- Both scanning phases of `findBestMatch`: the main-title pass, then
(when synonyms are present) every candidate against every synonym.
Returns the final `(bestMatch, highestSimilarity)`. -/
def bestScan (results : List Candidate) (title : String) (synonyms : List String) :
    Option Candidate × ℚ :=
  if synonyms ≠ [] then
    results.foldl (fun st manga =>
      synonyms.foldl (fun st2 syn => scanStep st2 (manga, stringSimilarity manga.title syn)) st)
      (bestScanTitle results title)
  else bestScanTitle results title

/-- `Mapper.findBestMatch` from src/src/providers/mapper.js (threshold
0.3).  On an empty result list the fallback branch evaluates
`results[0].title`, i.e. reads a property of `undefined`: a `TypeError`. -/
def findBestMatch (results : List Candidate) (title : String) (synonyms : List String) :
    Except JsError Candidate :=
  if (bestScan results title synonyms).1 = none ∨ (bestScan results title synonyms).2 < 3/10 then
    match results with
    | [] => .error .typeErrorUndefined
    | r :: _ => .ok r
  else
    match (bestScan results title synonyms).1 with
    | some m => .ok m
    | none => .error .typeErrorUndefined

/-- `findBestMatch` from the updated mapper (src/unnamed/part_001,
threshold raised to 0.4 and an explicit empty guard: with no results it
throws `No manga results found to match with title: ...`). -/
def findBestMatchV2 (results : List Candidate) (title : String) (synonyms : List String) :
    Except JsError Candidate :=
  if (bestScan results title synonyms).1 = none ∨ (bestScan results title synonyms).2 < 2/5 then
    match results with
    | [] => .error (.thrown ("No manga results found to match with title: " ++ title))
    | r :: _ => .ok r
  else
    match (bestScan results title synonyms).1 with
    | some m => .ok m
    | none => .error .typeErrorUndefined

/-- All similarity comparisons performed by `bestScan`, in scan order:
the whole main-title pass, then the candidate-by-candidate synonym pass. -/
def scanPairs (results : List Candidate) (title : String) (synonyms : List String) :
    List (Candidate × ℚ) :=
  results.map (fun m => (m, stringSimilarity m.title title)) ++
    if synonyms ≠ [] then
      results.flatMap (fun m => synonyms.map (fun syn => (m, stringSimilarity m.title syn)))
    else []

/-- Running maximum of the similarity values of a pair list, seeded at
`h` (the scan starts from `highestSimilarity = 0`). -/
def runMax (l : List (Candidate × ℚ)) (h : ℚ) : ℚ :=
  l.foldl (fun acc p => max acc p.2) h

/-! ## Alternate-title retry chain (mapper.js `searchAsuraScans`,
`searchMangaPark`) -/

/-- The message carried by a JS exception. -/
def jsMessage : JsError → String
  | .typeErrorUndefined => "Cannot read properties of undefined (reading title)"
  | .thrown m => m

/-- The `catch` block of the provider search methods re-throws with
provider context: `Failed to search manga on <provider>: <message>`. -/
def wrapSearchError (provider : String) (e : JsError) : JsError :=
  .thrown ("Failed to search manga on " ++ provider ++ ": " ++ jsMessage e)

/-- Apply the `catch` wrapping to a result that may have thrown. -/
def wrapCatch (provider : String) : Except JsError Candidate → Except JsError Candidate
  | .ok c => .ok c
  | .error e => .error (wrapSearchError provider e)

/-- The synonym retry loop: try each synonym in order; at the first one
whose search yields a non-empty result list, select a best match and
stop.  The second component is the list of queries actually sent to
`search`, in order. -/
def synonymLoop (search : String → List Candidate) (title : String)
    (synonyms : List String) : List String → Option (Except JsError Candidate) × List String
  | [] => (none, [])
  | syn :: rest =>
    if search syn ≠ [] then (some (findBestMatch (search syn) title synonyms), [syn])
    else
      ((synonymLoop search title synonyms rest).1,
        syn :: (synonymLoop search title synonyms rest).2)

/-- The provider search orchestration (`searchAsuraScans` and
`searchMangaPark` are identical up to the provider name): search the
main title; on an empty result list run the synonym loop; if that also
finds nothing, throw the no-listing error.  The network `search`
function is passed explicitly; the second component is the trace of
queries issued. -/
def searchWithRetry (provider : String) (search : String → List Candidate)
    (title : String) (synonyms : List String) : Except JsError Candidate × List String :=
  if search title = [] then
    match (if synonyms ≠ [] then synonymLoop search title synonyms synonyms else (none, [])) with
    | (some res, qs) => (wrapCatch provider res, title :: qs)
    | (none, qs) =>
      (.error (wrapSearchError provider
          (.thrown ("No matching manga found on " ++ provider ++ " for title: " ++ title))),
        title :: qs)
  else
    (wrapCatch provider (findBestMatch (search title) title synonyms), [title])

/-- `Mapper.searchAsuraScans`. -/
def searchAsuraScans : (String → List Candidate) → String → List String →
    Except JsError Candidate × List String :=
  searchWithRetry "AsuraScans"

/-- `Mapper.searchMangaPark`. -/
def searchMangaPark : (String → List Candidate) → String → List String →
    Except JsError Candidate × List String :=
  searchWithRetry "MangaPark"

/-! ## Chapter records -/

/-- A chapter record.  The JS objects of providers that never set a
`generated` property are modeled with the default `generated := false`
(an absent flag and a `false` flag are indistinguishable to consumers
that test `generated === true`). -/
structure Chapter where
  id : String
  title : String
  number : String
  url : String
  date : String
  generated : Bool := false
deriving Repr, DecidableEq

/-- Chapter fabrication of MangaBuddy `getMangaInfo` (src/unnamed/part_001,
the optimized version): from the single extracted `latestChapter` count,
generate all chapters newest-first; `date` is `Recent` for the latest and
`Unknown` for every other chapter; no `generated` flag is ever set. -/
def mangaBuddyChapters (baseUrl mangaId : String) (latestChapter : Nat) : List Chapter :=
  (List.range latestChapter).map (fun i =>
    { id := "chapter-" ++ toString (latestChapter - i)
      title := "Chapter " ++ toString (latestChapter - i)
      number := toString (latestChapter - i)
      url := baseUrl ++ "/" ++ mangaId ++ "/chapter-" ++ toString (latestChapter - i)
      date := if latestChapter - i = latestChapter then "Recent" else "Unknown"
      generated := false })

/-! ## Extraction pipelines

A fetched document is abstracted to the lists of matches each regex /
DOM scan would extract from it; the pipeline logic (ordering, guards,
filters, deduplication, index assignment, final sort) is translated from
the source. -/

/-- A page record `{url, index}`. -/
structure Page where
  url : String
  index : Nat
deriving Repr, DecidableEq

/-- JS `String.prototype.includes` (is `sub` an infix of `s`). -/
def jsIncludes (s sub : String) : Bool := decide (sub.data <:+: s.data)

/-- Test of the regex `\.(?:jpg|jpeg|png|webp)(?:\?|$)` (flag `i`): some
occurrence of `.ext` immediately followed by `?`, or `.ext` at the end.
(The MangaKakalot filter regex `\.(jpg|jpeg|png|webp)(\?.*)?$` denotes
the same predicate, since `.*` absorbs the remainder of the string.) -/
def hasImageExtQ (u : String) : Bool :=
  ["jpg", "jpeg", "png", "webp"].any (fun ext =>
    decide (('.' :: ext.data ++ ['?']) <:+: u.data.map Char.toLower) ||
    decide (('.' :: ext.data) <:+ u.data.map Char.toLower))

/-- Stable insertion for the final `pages.sort((a, b) => a.index - b.index)`. -/
def insertPage (x : Page) : List Page → List Page
  | [] => [x]
  | y :: rest => if x.index ≤ y.index then x :: y :: rest else y :: insertPage x rest

/-- Stable sort by ascending `index` (the JS engine sort is stable, so
any stable sorting algorithm gives the same list). -/
def sortPages (l : List Page) : List Page := l.foldr insertPage []

/-- Dedup-push used by MangaPark methods 1, 2 and 4: push
`{url, index++}` when the URL is non-empty and not already present
(method 1 tests `pages.some(...)`; methods 2 and 4 test an
`existingUrls` set seeded from `pages`, which holds the same URLs). -/
def mpPush (st : List Page × Nat) (u : String) : List Page × Nat :=
  if u ≠ "" ∧ ¬ st.1.any (fun p => p.url = u) then (st.1 ++ [⟨u, st.2⟩], st.2 + 1) else st

/-- MangaPark method 3 body: skip denylisted tokens, require an image
extension, resolve to an absolute URL, dedup-push. -/
def mpMethod3Push (baseUrl : String) (st : List Page × Nat) (u : String) : List Page × Nat :=
  if u = "" then st
  else if jsIncludes u "avatar" || jsIncludes u "icon" || jsIncludes u "logo" ||
      jsIncludes u "banner" then st
  else if hasImageExtQ u then
    mpPush st (if u.startsWith "http" then u
      else if u.startsWith "/" then baseUrl ++ u else baseUrl ++ "/" ++ u)
  else st

/-- MangaPark method 5 body: trim, skip denylisted tokens
(including the `thumb` + `small` combination), dedup-push. -/
def mpMethod5Push (st : List Page × Nat) (u0 : String) : List Page × Nat :=
  if u0.trim = "" ∨ jsIncludes u0.trim "avatar" = true ∨ jsIncludes u0.trim "icon" = true ∨
      jsIncludes u0.trim "logo" = true ∨ jsIncludes u0.trim "banner" = true ∨
      (jsIncludes u0.trim "thumb" = true ∧ jsIncludes u0.trim "small" = true) then st
  else if ¬ st.1.any (fun p => p.url = u0.trim) then (st.1 ++ [⟨u0.trim, st.2⟩], st.2 + 1)
  else st

/-- MangaPark method 2 step: CDN domain matches, appended after whatever
method 1 produced; note there is no `pages.length === 0` guard here. -/
def mpStage2 (pages : List Page) (m2 : List String) : List Page :=
  if 0 < m2.length then (m2.foldl mpPush (pages, pages.length + 1)).1 else pages

/-- MangaPark methods 1 and 2.  Method 1 (JSON `"url"` tokens) starts at
index 1; method 2 runs unconditionally, continuing the index counter. -/
def mpStage12 (m1 m2 : List String) : List Page :=
  mpStage2 (if 0 < m1.length then (m1.foldl mpPush ([], 1)).1 else []) m2

/-- MangaPark method 3, guarded by `pages.length === 0`. -/
def mpStage3 (baseUrl : String) (pages : List Page) (m3 : List String) : List Page :=
  if pages.length = 0 then
    (if 0 < m3.length then (m3.foldl (mpMethod3Push baseUrl) (pages, pages.length + 1)).1
     else pages)
  else pages

/-- MangaPark method 4, guarded by `pages.length === 0`. -/
def mpStage4 (pages : List Page) (m4 : List String) : List Page :=
  if pages.length = 0 then
    (if 0 < m4.length then (m4.foldl mpPush (pages, pages.length + 1)).1 else pages)
  else pages

/-- MangaPark method 5, guarded by `pages.length === 0` (fresh index 1). -/
def mpStage5 (pages : List Page) (m5 : List String) : List Page :=
  if pages.length = 0 then
    (if 0 < m5.length then (m5.foldl mpMethod5Push (pages, 1)).1 else pages)
  else pages

/-- MangaPark `fetchChapterPages` (src/src/providers/mangapark.js; the
src/unnamed/part_001 copy differs only in URL resolution).  Inputs are
the per-strategy match lists recovered from the fetched document:
`m1` the capture groups of `"url":"([^"]+\.(jpg|jpeg|png|webp))"` (after
slash unescaping), `m2` the whole matches of the `mp*.org/media` CDN
regex, `m3` the captured `data-src`/`src` attribute values, `m4` the URL
strings recovered from the first successfully parsed script-array
pattern, `m5` the whole matches of the broad image-URL regex. -/
def mangaParkFetchPages (baseUrl : String) (m1 m2 m3 m4 m5 : List String) : List Page :=
  sortPages (mpStage5 (mpStage4 (mpStage3 baseUrl (mpStage12 m1 m2) m3) m4) m5)

/-- Index assignment shared by MangaBuddy and MangaKakalot
`fetchChapterPages`: `Array.from(uniqueUrls).map((url, i) => ({url,
index: i + 1}))`. -/
def toPages (uniq : List String) : List Page :=
  uniq.enum.map (fun p => ⟨p.2, p.1 + 1⟩)

/-- MangaBuddy method 1 body (one member of a comma-separated list). -/
def mbMethod1Add (uniq : List String) (url : String) : List String :=
  if url ≠ "" ∧ url.trim ≠ "" ∧ ¬ jsIncludes url "avatar" = true ∧
      ¬ jsIncludes url "icon" = true ∧ ¬ jsIncludes url "thumb." = true ∧
      url.trim ∉ uniq
  then uniq ++ [url.trim] else uniq

/-- MangaBuddy method 1: comma-separated URL list matches, each split on
`,` and the members filtered and added. -/
def mbMethod1 (uniq : List String) (m1 : List String) : List String :=
  if 0 < m1.length then
    m1.foldl (fun uniq mtch => (mtch.splitOn ",").foldl mbMethod1Add uniq) uniq
  else uniq

/-- MangaBuddy method 2 body: one DOM element `src = data-src || src`;
a comma-containing value is split and each member added trimmed. -/
def mbMethod2Src (uniq : List String) (src : String) : List String :=
  if src ≠ "" ∧ ¬ jsIncludes src "/static/common/x.gif" = true ∧
      ¬ jsIncludes src "thumb." = true ∧ ¬ jsIncludes src "thumbnail." = true then
    if jsIncludes src "," then
      (src.splitOn ",").foldl (fun uniq url =>
        if url ≠ "" ∧ url.trim ≠ "" ∧ url.trim ∉ uniq then uniq ++ [url.trim] else uniq) uniq
    else if src ∉ uniq then uniq ++ [src] else uniq
  else uniq

/-- MangaBuddy methods 3, 4 and 5 all add with the same guard shape
`if (imageUrl && !uniqueUrls.has(imageUrl))`. -/
def mbGuardedAdds (uniq : List String) (ms : List String) : List String :=
  ms.foldl (fun uniq u => if u ≠ "" ∧ u ∉ uniq then uniq ++ [u] else uniq) uniq

/-- Stage wrapper for MangaBuddy methods 3-5: run only while the set is
still empty, and only when the corresponding match list is non-empty. -/
def mbGuardStage (uniq : List String) (ms : List String) : List String :=
  if uniq.length = 0 then (if 0 < ms.length then mbGuardedAdds uniq ms else uniq) else uniq

/-- MangaBuddy method 6 body: trim, denylist filter, add. -/
def mbMethod6Add (uniq : List String) (u0 : String) : List String :=
  if u0.trim = "" ∨ jsIncludes u0.trim "avatar" = true ∨ jsIncludes u0.trim "icon" = true ∨
      jsIncludes u0.trim "logo" = true ∨ jsIncludes u0.trim "banner" = true ∨
      (jsIncludes u0.trim "thumb" = true ∧ jsIncludes u0.trim "small" = true) then uniq
  else if u0.trim ∉ uniq then uniq ++ [u0.trim] else uniq

/-- MangaBuddy method 6 stage (broad scan, guarded by emptiness). -/
def mbStage6 (uniq : List String) (m6 : List String) : List String :=
  if uniq.length = 0 then (if 0 < m6.length then m6.foldl mbMethod6Add uniq else uniq)
  else uniq

/-- The insertion-ordered URL set built by MangaBuddy
`fetchChapterPages` (src/unnamed/part_001): methods 1 (comma lists) and
2 (DOM `data-src || src`) run unconditionally; methods 3 (CDN domain),
4 (JSON tokens), 5 (script arrays) and 6 (broad scan) only while the set
is still empty. -/
def mbUniq (m1 domSrcs m3 m4 m5 m6 : List String) : List String :=
  mbStage6 (mbGuardStage (mbGuardStage (mbGuardStage
    (domSrcs.foldl mbMethod2Src (mbMethod1 [] m1)) m3) m4) m5) m6

/-- MangaBuddy `fetchChapterPages`: unique URLs, indexed from 1 in
first-seen order, then defensively sorted by index. -/
def mangaBuddyFetchPages (m1 domSrcs m3 m4 m5 m6 : List String) : List Page :=
  sortPages (toPages (mbUniq m1 domSrcs m3 m4 m5 m6))

/-- JS `a || b` on strings (the empty string is falsy). -/
def jsOrElse (a b : String) : String := if a ≠ "" then a else b

/-- MangaKakalot method 1 body: a reader `<img>` element with attribute
pair `(src, data-src)` (an absent attribute is the empty string);
`imageUrl = src || data-src`; `Set.add` keeps the first occurrence. -/
def mkMethod1Img (uniq : List String) (attrs : String × String) : List String :=
  if jsOrElse attrs.1 attrs.2 ≠ "" ∧
      ¬ jsIncludes (jsOrElse attrs.1 attrs.2) "thumb." = true ∧
      ¬ jsIncludes (jsOrElse attrs.1 attrs.2) "logo" = true ∧
      ¬ jsIncludes (jsOrElse attrs.1 attrs.2) "icon" = true then
    (if jsOrElse attrs.1 attrs.2 ∈ uniq then uniq
     else uniq ++ [jsOrElse attrs.1 attrs.2])
  else uniq

/-- MangaKakalot method 2 body (raw-HTML regex matches). -/
def mkMethod2Add (uniq : List String) (u : String) : List String :=
  if u ≠ "" ∧ ¬ jsIncludes u "thumb." = true ∧ ¬ jsIncludes u "logo" = true ∧
      ¬ jsIncludes u "icon" = true ∧ ¬ jsIncludes u "avatars" = true ∧ u ∉ uniq
  then uniq ++ [u] else uniq

/-- MangaKakalot method 3 body (script-array URL strings). -/
def mkMethod3Add (uniq : List String) (u : String) : List String :=
  if u ≠ "" ∧ u ∉ uniq then uniq ++ [u] else uniq

/-- MangaKakalot methods 2 / 3 stages, guarded by `uniqueUrls.size === 0`. -/
def mkStage2 (uniq : List String) (m2 : List String) : List String :=
  if uniq.length = 0 then m2.foldl mkMethod2Add uniq else uniq

/-- MangaKakalot method 3 stage. -/
def mkStage3 (uniq : List String) (m3 : List String) : List String :=
  if uniq.length = 0 then m3.foldl mkMethod3Add uniq else uniq

/-- The URL set built by MangaKakalot `fetchChapterPages`
(src/unnamed/part_000). -/
def mkUniq (domImgs : List (String × String)) (m2 m3 : List String) : List String :=
  mkStage3 (mkStage2 (domImgs.foldl mkMethod1Img []) m2) m3

/-- The final filter of MangaKakalot `fetchChapterPages`:
`url.match(/\.(jpg|jpeg|png|webp)(\?.*)?$/i)` and no denylist token. -/
def mkPageFilter (u : String) : Bool :=
  hasImageExtQ u && !(jsIncludes u "avatar") && !(jsIncludes u "logo") &&
    !(jsIncludes u "banner")

/-- MangaKakalot `fetchChapterPages`: unique URLs, filtered, indexed
from 1 in first-seen order, sorted by index. -/
def mangaKakalotFetchPages (domImgs : List (String × String)) (m2 m3 : List String) :
    List Page :=
  sortPages (toPages ((mkUniq domImgs m2 m3).filter mkPageFilter))

/-! ## MangaPark chapter assembly and gap generation (src/src/providers/
mangapark.js, second copy, `getMangaInfo` lines 604-691) -/

/-- Numeric value of a digit list. -/
def digitsVal (l : List Char) : Nat :=
  l.foldl (fun acc c => acc * 10 + (c.toNat - Char.toNat '0')) 0

/-- Model of `parseFloat` restricted to the numeral shapes this code
produces and consumes (digits with an optional fractional part; no sign
or exponent handling; trailing garbage ignored as in JS).  `none` is
`NaN`. -/
def jsParseFloat (s : String) : Option ℚ :=
  match s.data with
  | c :: _ =>
    if c.isDigit then
      match s.data.dropWhile Char.isDigit with
      | '.' :: rest2 =>
        some ((digitsVal (s.data.takeWhile Char.isDigit) : ℚ) +
          (digitsVal (rest2.takeWhile Char.isDigit) : ℚ)
            / (10 : ℚ) ^ (rest2.takeWhile Char.isDigit).length)
      | _ => some (digitsVal (s.data.takeWhile Char.isDigit) : ℚ)
    else none
  | [] => none

/-- Consume one-or-more digits (`\d+`, maximal munch; in every pattern
below the next token is not a digit, so this is exact). -/
def chompDigits (l : List Char) : Option (List Char) :=
  match l with
  | c :: _ => if c.isDigit then some (l.dropWhile Char.isDigit) else none
  | [] => none

/-- Consume a literal. -/
def chompLit (pat : String) (l : List Char) : Option (List Char) :=
  if pat.data.isPrefixOf l then some (l.drop pat.length) else none

/-- Match `\d+-chapter-\d+` at the start of the list. -/
def matchNumChapterNum (l : List Char) : Bool :=
  (chompDigits l >>= chompLit "-chapter-" >>= chompDigits).isSome

/-- Match `\d+-ch-\d+` at the start of the list. -/
def matchNumChNum (l : List Char) : Bool :=
  (chompDigits l >>= chompLit "-ch-" >>= chompDigits).isSome

/-- Match `\d+-volume-\d+-chapter-\d+` at the start of the list. -/
def matchNumVolChapter (l : List Char) : Bool :=
  (chompDigits l >>= chompLit "-volume-" >>= chompDigits >>= chompLit "-chapter-" >>=
    chompDigits).isSome

/-- Unanchored `String.prototype.match` as a Boolean: try the matcher at
every position. -/
def searchAnywhere (m : List Char → Bool) : List Char → Bool
  | [] => m []
  | l@(_ :: rest) => m l || searchAnywhere m rest

/-- First capture of `/volume-(\d+)/`: the digits after the leftmost
occurrence of `volume-` that is followed by at least one digit. -/
def captureVolume : List Char → Option String
  | [] => none
  | l@(_ :: rest) =>
    match chompLit "volume-" l with
    | some r =>
      if (r.takeWhile Char.isDigit) ≠ [] then some (String.mk (r.takeWhile Char.isDigit))
      else captureVolume rest
    | none => captureVolume rest

/-- Auxiliary for `str.replace(/<pat>$/, repl)`: find the leftmost
position whose entire remaining suffix passes `test` and replace that
suffix. -/
def replaceEndAux (test : List Char → Bool) (repl : List Char) : List Char → Option (List Char)
  | [] => if test [] then some repl else none
  | c :: rest =>
    if test (c :: rest) then some repl
    else (replaceEndAux test repl rest).map (c :: ·)

/-- `str.replace(/<pat>$/, repl)`; unchanged when nothing matches. -/
def replaceEnd (test : List Char → Bool) (s repl : String) : String :=
  String.mk ((replaceEndAux test repl.data s.data).getD s.data)

/-- Whole-suffix test for `\/\d+-chapter-\d+$`. -/
def testSlashNumChapterEnd (l : List Char) : Bool :=
  match l with
  | '/' :: rest =>
    match chompDigits rest with
    | some r =>
      match chompLit "-chapter-" r with
      | some r2 => r2 ≠ [] && r2.all Char.isDigit
      | none => false
    | none => false
  | _ => false

/-- Whole-suffix test for `\/\d+-ch-\d+$`. -/
def testSlashNumChEnd (l : List Char) : Bool :=
  match l with
  | '/' :: rest =>
    match chompDigits rest with
    | some r =>
      match chompLit "-ch-" r with
      | some r2 => r2 ≠ [] && r2.all Char.isDigit
      | none => false
    | none => false
  | _ => false

/-- Whole-suffix test for `\/\d+-volume-\d+-chapter-\d+$`. -/
def testSlashNumVolChapterEnd (l : List Char) : Bool :=
  match l with
  | '/' :: rest =>
    match chompDigits rest >>= chompLit "-volume-" >>= chompDigits >>=
        chompLit "-chapter-" with
    | some r2 => r2 ≠ [] && r2.all Char.isDigit
    | none => false
  | _ => false

/-- Whole-suffix test for `\/chapter-\d+$`. -/
def testSlashChapterEnd (l : List Char) : Bool :=
  match l with
  | '/' :: rest =>
    match chompLit "chapter-" rest with
    | some r2 => r2 ≠ [] && r2.all Char.isDigit
    | none => false
  | _ => false

/-- Sort key of the final chapter sort: `parseFloat(ch.number) || 0`. -/
def chKey (ch : Chapter) : ℚ := (jsParseFloat ch.number).getD 0

/-- Stable insertion for descending sort by `chKey`. -/
def insertChapterDesc (x : Chapter) : List Chapter → List Chapter
  | [] => [x]
  | y :: rest => if chKey y ≤ chKey x then x :: y :: rest else y :: insertChapterDesc x rest

/-- The final `chapters.sort((a, b) => (parseFloat(b.number) || 0) -
(parseFloat(a.number) || 0))` — a stable descending sort. -/
def sortChaptersDesc (l : List Chapter) : List Chapter := l.foldr insertChapterDesc []

/-- `chapterMap.has(k)` on the insertion-ordered association list. -/
def mapHas (m : List (ℚ × Chapter)) (k : ℚ) : Bool := m.any (fun e => e.1 = k)

/-- Generation of one missing chapter `i` (the body of
`if (!chapterMap.has(i)) { ... }`): pick a URL template from a nearby
extracted chapter whose id looks like a chapter id, otherwise fall back
to `baseUrl/title/mangaId/chapter-i`.  The generated record always has
`title = Chapter i`, `number = i`, `date = Unknown`, `generated = true`. -/
def inferGenerated (baseUrl mangaId : String) (extractedChapters : List Chapter) (i : Nat) :
    Chapter :=
  match extractedChapters.filter (fun ch =>
      (match jsParseFloat ch.number with
       | some n => decide (|n - (i : ℚ)| < 5)
       | none => false) &&
      (jsIncludes ch.id "-chapter-" || jsIncludes ch.id "-ch-")) with
  | [] =>
    { id := "chapter-" ++ toString i, title := "Chapter " ++ toString i,
      number := toString i,
      url := baseUrl ++ "/title/" ++ mangaId ++ "/chapter-" ++ toString i,
      date := "Unknown", generated := true }
  | template :: _ =>
    if searchAnywhere matchNumVolChapter template.id.data then
      { id := "chapter-" ++ toString i, title := "Chapter " ++ toString i,
        number := toString i,
        url := replaceEnd testSlashNumVolChapterEnd template.url
          ("/volume-" ++ ((captureVolume template.id.data).getD "1") ++
            "-chapter-" ++ toString i),
        date := "Unknown", generated := true }
    else if searchAnywhere matchNumChapterNum template.id.data then
      { id := "chapter-" ++ toString i, title := "Chapter " ++ toString i,
        number := toString i,
        url := replaceEnd testSlashNumChapterEnd template.url ("/chapter-" ++ toString i),
        date := "Unknown", generated := true }
    else if searchAnywhere matchNumChNum template.id.data then
      { id := "ch-" ++ toString i, title := "Chapter " ++ toString i,
        number := toString i,
        url := replaceEnd testSlashNumChEnd template.url ("/ch-" ++ toString i),
        date := "Unknown", generated := true }
    else
      { id := "chapter-" ++ toString i, title := "Chapter " ++ toString i,
        number := toString i,
        url := replaceEnd testSlashChapterEnd template.url ("/chapter-" ++ toString i),
        date := "Unknown", generated := true }

/-- Chapter assembly of MangaPark `getMangaInfo` (second copy): from the
insertion-ordered `chapterMap` of extracted chapters keyed by their
chapter number, compute the highest number, decide whether to generate
(`highestChapterNum > 0 && extractedChapters.length <
highestChapterNum / 2`), fill the gaps in `1..highestChapterNum`
(appending to the map in loop order), and sort descending by number. -/
def assembleChapters (baseUrl mangaId : String) (chapterMap : List (ℚ × Chapter)) :
    List Chapter :=
  let extractedChapters := chapterMap.map Prod.snd
  let highestChapterNum : ℚ := extractedChapters.foldl (fun h ch =>
    match jsParseFloat ch.number with
    | some n => if h < n then n else h
    | none => h) 0
  if 0 < highestChapterNum ∧ (extractedChapters.length : ℚ) < highestChapterNum / 2 then
    sortChaptersDesc (((List.range ⌊highestChapterNum⌋.toNat).foldl (fun m k =>
        if mapHas m ((k + 1 : Nat) : ℚ) then m
        else m ++ [(((k + 1 : Nat) : ℚ),
          inferGenerated baseUrl mangaId extractedChapters (k + 1))])
      chapterMap).map Prod.snd)
  else sortChaptersDesc extractedChapters

/-! ## Concrete fixtures used by witnesses and counterexamples -/

/-- A search oracle for the retry-chain witness: only the query `s2`
has results. -/
def demoSearch : String → List Candidate :=
  fun q => if q = "s2" then [⟨"9", "Title Nine"⟩] else []

/-- An extracted MangaPark chapter with number `n` (as scraped from a
chapter list: plain `chapter-N` id, a concrete date). -/
def mpCh (n : String) : Chapter :=
  { id := "chapter-" ++ n, title := "Chapter " ++ n, number := n,
    url := "https://mangapark.net/title/m1/chapter-" ++ n, date := "today" }

/-- The chapter a gap-fill would generate for number `n` when no nearby
template chapter exists. -/
def genCh (n : Nat) : Chapter :=
  { id := "chapter-" ++ toString n, title := "Chapter " ++ toString n,
    number := toString n,
    url := "https://mangapark.net/title/m1/chapter-" ++ toString n,
    date := "Unknown", generated := true }

/-- Extracted chapter map with numbers 1, 2, 5. -/
def chapterMap125 : List (ℚ × Chapter) := [(1, mpCh "1"), (2, mpCh "2"), (5, mpCh "5")]

/-- Extracted chapter map with numbers 1, 5. -/
def chapterMap15 : List (ℚ × Chapter) := [(1, mpCh "1"), (5, mpCh "5")]

/-- Extracted chapter map with numbers 1-5 (no gap). -/
def chapterMap12345 : List (ℚ × Chapter) :=
  [(1, mpCh "1"), (2, mpCh "2"), (3, mpCh "3"), (4, mpCh "4"), (5, mpCh "5")]

theorem lev_nil_left (ys : List Char) : lev [] ys = ys.length := by
  rw [lev]

theorem lev_cons_nil (x : Char) (xs : List Char) : lev (x :: xs) [] = xs.length + 1 := by
  rw [lev]

theorem lev_nil_right (xs : List Char) : lev xs [] = xs.length := by
  cases xs with
  | nil => rw [lev]
  | cons x xs => rw [lev] ; simp

theorem lev_cons_cons (x y : Char) (xs ys : List Char) :
    lev (x :: xs) (y :: ys) =
      if x = y then lev xs ys
      else 1 + min (lev xs ys) (min (lev (x :: xs) ys) (lev xs (y :: ys))) := by
  rw [lev]

/-- Rearrangement of nested minima used in the hard case of
`lev_append_append` (the two evaluation orders of the 2x2 corner of the
dynamic-programming table agree). -/
theorem min9 (P Q R S T U V W X : Nat) :
    1 + min (1 + min P (min Q R)) (min (1 + min S (min U W)) (1 + min T (min X V))) =
    1 + min (1 + min P (min S T)) (min (1 + min Q (min U X)) (1 + min R (min W V))) := by
  have h1 : ∀ a b c : Nat, min (1 + a) (min (1 + b) (1 + c)) = 1 + min a (min b c) := by
    intro a b c ; omega
  rw [h1, h1]
  have h2 : min (min P (min Q R)) (min (min S (min U W)) (min T (min X V))) =
      min (min P (min S T)) (min (min Q (min U X)) (min R (min W V))) := by
    apply le_antisymm <;> simp only [le_min_iff, min_le_iff] <;> omega
  rw [h2]

theorem lev_le_sum : ∀ (xs ys : List Char), lev xs ys ≤ xs.length + ys.length := by
  intro xs ys
  generalize hn : xs.length + ys.length = n
  induction n using Nat.strong_induction_on generalizing xs ys with
  | _ n IH =>
    cases xs with
    | nil => rw [lev_nil_left] ; simp at hn ; omega
    | cons x xs =>
      cases ys with
      | nil => rw [lev_cons_nil] ; simp at hn ; omega
      | cons y ys =>
        rw [lev_cons_cons]
        have h1 : lev xs ys ≤ xs.length + ys.length :=
          IH (xs.length + ys.length) (by simp at hn ; omega) xs ys rfl
        simp at hn
        by_cases hxy : x = y
        · simp only [hxy, if_true] ; omega
        · simp only [hxy, if_false] ; omega

theorem lev_self : ∀ (xs : List Char), lev xs xs = 0 := by
  intro xs
  induction xs with
  | nil => simp [lev_nil_left]
  | cons x xs ih => rw [lev_cons_cons] ; simp [ih]

set_option maxHeartbeats 1000000 in
/-- The Levenshtein recurrence also holds at the right end of both lists.
This is what connects the row-by-row dynamic program (which extends the
processed prefixes on the right) with the textbook recursion on heads. -/
theorem lev_append_append (x y : Char) (as bs : List Char) :
    lev (as ++ [x]) (bs ++ [y]) =
      if x = y then lev as bs
      else 1 + min (lev as bs) (min (lev (as ++ [x]) bs) (lev as (bs ++ [y]))) := by
  generalize hn : as.length + bs.length = n
  induction n using Nat.strong_induction_on generalizing as bs with
  | _ n IH =>
    cases as with
    | nil =>
      cases bs with
      | nil =>
        simp only [List.nil_append]
        rw [lev_cons_cons]
      | cons b bs' =>
        have hIH := IH ([].length + bs'.length) (by simp at hn ⊢ ; omega) [] bs' rfl
        have e1 := lev_cons_cons x b [] (bs' ++ [y])
        have e2 := lev_cons_cons x b [] bs'
        have hL : lev [x] bs' ≤ 1 + bs'.length := by
          have := lev_le_sum [x] bs' ; simpa using this
        simp only [List.nil_append, List.cons_append] at hIH e1 e2 ⊢
        simp only [lev_nil_left, lev_nil_right, List.length_append, List.length_cons,
          List.length_nil] at hIH e1 e2 ⊢
        split_ifs at hIH e1 e2 ⊢ <;> omega
    | cons a as' =>
      cases bs with
      | nil =>
        have hIH := IH (as'.length + [].length) (by simp at hn ⊢ ; omega) as' [] rfl
        have e1 := lev_cons_cons a y (as' ++ [x]) []
        have e2 := lev_cons_cons a y as' []
        have hL : lev as' [y] ≤ as'.length + 1 := by
          have := lev_le_sum as' [y] ; simpa using this
        simp only [List.nil_append, List.cons_append] at hIH e1 e2 ⊢
        simp only [lev_nil_left, lev_nil_right, List.length_append, List.length_cons,
          List.length_nil] at hIH e1 e2 ⊢
        split_ifs at hIH e1 e2 ⊢ <;> omega
      | cons b bs' =>
        have hA := IH (as'.length + bs'.length) (by simp at hn ⊢ ; omega) as' bs' rfl
        have hB := IH ((a :: as').length + bs'.length) (by simp at hn ⊢ ; omega) (a :: as') bs' rfl
        have hC := IH (as'.length + (b :: bs').length) (by simp at hn ⊢ ; omega) as' (b :: bs') rfl
        have hTop := lev_cons_cons a b (as' ++ [x]) (bs' ++ [y])
        have hG := lev_cons_cons a b as' bs'
        have hH := lev_cons_cons a b (as' ++ [x]) bs'
        have hK := lev_cons_cons a b as' (bs' ++ [y])
        simp only [List.cons_append] at hA hB hC hTop hG hH hK ⊢
        by_cases hab : a = b
        · by_cases hxy : x = y
          · simp only [hab, hxy, eq_self_iff_true, if_true]
              at hA hB hC hTop hG hH hK ⊢
            omega
          · simp only [hab, hxy, eq_self_iff_true, if_true, if_false]
              at hA hB hC hTop hG hH hK ⊢
            omega
        · by_cases hxy : x = y
          · simp only [hab, hxy, eq_self_iff_true, if_true, if_false]
              at hA hB hC hTop hG hH hK ⊢
            omega
          · simp only [hab, hxy, if_false] at hA hB hC hTop hG hH hK ⊢
            rw [hTop, hA, hB, hC, hG, hH, hK]
            exact min9 _ _ _ _ _ _ _ _ _

theorem lev_symm (xs ys : List Char) : lev xs ys = lev ys xs := by
  generalize hn : xs.length + ys.length = n
  induction n using Nat.strong_induction_on generalizing xs ys with
  | _ n IH =>
    cases xs with
    | nil => rw [lev_nil_left, lev_nil_right]
    | cons x xs =>
      cases ys with
      | nil => rw [lev_nil_right, lev_nil_left]
      | cons y ys =>
        have h1 := IH (xs.length + ys.length) (by simp at hn ⊢ ; omega) xs ys rfl
        have h2 := IH ((x :: xs).length + ys.length) (by simp at hn ⊢ ; omega) (x :: xs) ys rfl
        have h3 := IH (xs.length + (y :: ys).length) (by simp at hn ⊢ ; omega) xs (y :: ys) rfl
        rw [lev_cons_cons, lev_cons_cons]
        by_cases hxy : x = y
        · simp only [hxy, eq_self_iff_true, if_true]
          exact h1
        · have hyx : ¬ y = x := fun h => hxy h.symm
          simp only [if_neg hxy, if_neg hyx]
          omega

theorem levRow_nil (p r : List Char) : levRow p r [] = [lev p r] := by
  simp [levRow]

theorem levRow_cons (p r : List Char) (y : Char) (ys : List Char) :
    levRow p r (y :: ys) = lev p r :: levRow p (r ++ [y]) ys := by
  simp only [levRow, List.length_cons]
  rw [List.range_succ_eq_map]
  simp only [List.map_cons, List.take_zero, List.append_nil, List.map_map]
  refine congrArg (lev p r :: ·) ?_
  apply List.map_congr_left
  intro j _
  simp [List.take_succ_cons, List.append_assoc]

theorem levRow_headD (p r q : List Char) : (levRow p r q).headD 0 = lev p r := by
  cases q with
  | nil => rw [levRow_nil] ; rfl
  | cons y ys => rw [levRow_cons] ; rfl

/-- One inner-loop pass turns the row for prefix `p` into the row for
prefix `p ++ [c]`, provided `lastValue` starts at the distance from
`p ++ [c]` to `r` (in the program: `lastValue = i`, the length of the
processed `s1`-prefix). -/
theorem jsInner_levRow (c : Char) :
    ∀ (q p r : List Char),
      jsInner c q (levRow p r q) (lev (p ++ [c]) r) = levRow (p ++ [c]) r q := by
  intro q
  induction q with
  | nil =>
    intro p r
    rw [levRow_nil, levRow_nil]
    simp [jsInner]
  | cons y ys ih =>
    intro p r
    rw [levRow_cons, levRow_cons]
    rw [jsInner]
    have hnew : (if c ≠ y
        then min (min (lev p r) (lev (p ++ [c]) r)) ((levRow p (r ++ [y]) ys).headD 0) + 1
        else lev p r) = lev (p ++ [c]) (r ++ [y]) := by
      rw [levRow_headD, lev_append_append c y p r]
      by_cases hcy : c = y
      · simp [hcy]
      · simp only [hcy, if_false, Ne, not_false_iff, if_true]
        omega
    rw [hnew, ih p (r ++ [y])]

/-- The outer loop: starting from the row of prefix `p` with row number
`p.length + 1`, consuming the rest of `s1` produces the row of the full
string. -/
theorem jsOuter_levRow (s2 : List Char) :
    ∀ (rem p : List Char),
      jsOuter s2 rem (p.length + 1) (levRow p [] s2) = levRow (p ++ rem) [] s2 := by
  intro rem
  induction rem with
  | nil => intro p ; simp [jsOuter]
  | cons c cs ih =>
    intro p
    rw [jsOuter]
    have h1 : lev (p ++ [c]) [] = p.length + 1 := by rw [lev_nil_right] ; simp
    have h2 := jsInner_levRow c s2 p []
    rw [h1] at h2
    rw [h2]
    have h3 := ih (p ++ [c])
    simp only [List.length_append, List.length_cons, List.length_nil,
      List.append_assoc, List.cons_append, List.nil_append] at h3
    exact h3

/-- The `editDistance` loop computes the classic Levenshtein distance of
the case-folded inputs. -/
theorem editDistance_eq_lev (s1 s2 : String) :
    editDistance s1 s2 = lev (jsToLowerCase s1).data (jsToLowerCase s2).data := by
  have h0 : ∀ (q : List Char), List.range (q.length + 1) = levRow [] [] q := by
    intro q
    unfold levRow
    symm
    calc (List.range (q.length + 1)).map (fun j => lev [] ([] ++ q.take j))
        = (List.range (q.length + 1)).map (fun j => j) := by
          apply List.map_congr_left
          intro j hj
          rw [List.mem_range] at hj
          rw [List.nil_append, lev_nil_left, List.length_take]
          omega
      _ = List.range (q.length + 1) := List.map_id' _
  set t1 := (jsToLowerCase s1).data with ht1
  set t2 := (jsToLowerCase s2).data with ht2
  show (jsOuter t2 t1 1 (List.range (t2.length + 1))).getD t2.length 0 = lev t1 t2
  rw [h0 t2]
  have h1 := jsOuter_levRow t2 t1 []
  simp only [List.length_nil, List.nil_append, Nat.zero_add] at h1
  rw [h1]
  unfold levRow
  have hlen : t2.length < (List.range (t2.length + 1)).length := by simp
  rw [List.getD_eq_getElem?_getD, List.getElem?_map, List.getElem?_range (by omega)]
  simp [List.take_length]

theorem editDistance_symm (s1 s2 : String) : editDistance s1 s2 = editDistance s2 s1 := by
  rw [editDistance_eq_lev, editDistance_eq_lev, lev_symm]

theorem lev_le_max : ∀ (xs ys : List Char), lev xs ys ≤ max xs.length ys.length := by
  intro xs ys
  generalize hn : xs.length + ys.length = n
  induction n using Nat.strong_induction_on generalizing xs ys with
  | _ n IH =>
    cases xs with
    | nil => rw [lev_nil_left] ; simp
    | cons x xs =>
      cases ys with
      | nil => rw [lev_cons_nil] ; simp
      | cons y ys =>
        rw [lev_cons_cons]
        have h1 : lev xs ys ≤ max xs.length ys.length :=
          IH (xs.length + ys.length) (by simp at hn ⊢ ; omega) xs ys rfl
        simp only [List.length_cons]
        by_cases hxy : x = y
        · simp only [hxy, if_true] ; omega
        · simp only [hxy, if_false] ; omega

theorem jsToLowerCase_data (s : String) : (jsToLowerCase s).data = s.data.map Char.toLower :=
  rfl

theorem jsToLowerCase_length (s : String) : (jsToLowerCase s).length = s.length := by
  show (jsToLowerCase s).data.length = s.data.length
  rw [jsToLowerCase_data, List.length_map]

theorem editDistance_self (s : String) : editDistance s s = 0 := by
  rw [editDistance_eq_lev, lev_self]

theorem editDistance_le_max (s1 s2 : String) :
    editDistance s1 s2 ≤ max s1.length s2.length := by
  rw [editDistance_eq_lev]
  have h := lev_le_max (jsToLowerCase s1).data (jsToLowerCase s2).data
  have e1 : (jsToLowerCase s1).data.length = s1.length := by
    rw [jsToLowerCase_data, List.length_map] ; rfl
  have e2 : (jsToLowerCase s2).data.length = s2.length := by
    rw [jsToLowerCase_data, List.length_map] ; rfl
  rw [e1, e2] at h
  exact h

theorem string_length_ne_zero {s : String} (h : s ≠ "") : s.length ≠ 0 := by
  intro hc
  apply h
  cases s with
  | mk data =>
    cases data with
    | nil => rfl
    | cons c cs => simp [String.length] at hc

theorem stringSimilarity_both_empty : stringSimilarity "" "" = 0 := by
  unfold stringSimilarity
  rw [if_pos (Or.inl rfl)]

theorem stringSimilarity_empty (a b : String) (h : a = "" ∨ b = "") :
    stringSimilarity a b = 0 := by
  unfold stringSimilarity
  rw [if_pos h]

theorem simLonger_self (a : String) : simLonger a a = jsToLowerCase a := by
  unfold simLonger ; rw [if_pos le_rfl]

theorem simShorter_self (a : String) : simShorter a a = jsToLowerCase a := by
  unfold simShorter ; rw [if_pos le_rfl]

theorem stringSimilarity_self (a : String) (h : a ≠ "") : stringSimilarity a a = 1 := by
  unfold stringSimilarity
  rw [if_neg (by simp [h])]
  rw [simLonger_self, simShorter_self]
  rw [if_neg (by rw [jsToLowerCase_length] ; exact string_length_ne_zero h)]
  rw [editDistance_self]
  have hq : ((jsToLowerCase a).length : ℚ) ≠ 0 := by
    rw [jsToLowerCase_length]
    exact_mod_cast string_length_ne_zero h
  push_cast
  field_simp

theorem stringSimilarity_comm (a b : String) :
    stringSimilarity a b = stringSimilarity b a := by
  unfold stringSimilarity simLonger simShorter
  by_cases he : a = "" ∨ b = ""
  · rw [if_pos he, if_pos (Or.symm he)]
  · rw [if_neg he, if_neg (fun h => he (Or.symm h))]
    by_cases h1 : b.length ≤ a.length
    · by_cases h2 : a.length ≤ b.length
      · -- equal lengths: the selected pair swaps; conclude by symmetry of editDistance
        simp only [h1, h2, if_true]
        have hl : (jsToLowerCase b).length = (jsToLowerCase a).length := by
          rw [jsToLowerCase_length, jsToLowerCase_length] ; omega
        rw [hl, editDistance_symm (jsToLowerCase b) (jsToLowerCase a)]
      · -- a strictly longer: both sides pick (lower a, lower b)
        simp only [h1, h2, if_true, if_false]
    · by_cases h2 : a.length ≤ b.length
      · -- b strictly longer: both sides pick (lower b, lower a)
        simp only [h1, h2, if_true, if_false]
      · omega

theorem stringSimilarity_nonneg (a b : String) : 0 ≤ stringSimilarity a b := by
  unfold stringSimilarity simLonger simShorter
  by_cases he : a = "" ∨ b = ""
  · rw [if_pos he]
  · rw [if_neg he]
    by_cases h1 : b.length ≤ a.length
    · simp only [h1, if_true]
      by_cases h0 : (jsToLowerCase a).length = 0
      · rw [if_pos h0] ; norm_num
      · rw [if_neg h0]
        apply div_nonneg
        · have hle := editDistance_le_max (jsToLowerCase a) (jsToLowerCase b)
          rw [jsToLowerCase_length, jsToLowerCase_length] at hle
          have hle2 : editDistance (jsToLowerCase a) (jsToLowerCase b) ≤ (jsToLowerCase a).length := by
            rw [jsToLowerCase_length] ; omega
          have := (@Nat.cast_le ℚ _ _ _).mpr hle2
          linarith
        · positivity
    · simp only [h1, if_false]
      by_cases h0 : (jsToLowerCase b).length = 0
      · rw [if_pos h0] ; norm_num
      · rw [if_neg h0]
        apply div_nonneg
        · have hle := editDistance_le_max (jsToLowerCase b) (jsToLowerCase a)
          rw [jsToLowerCase_length, jsToLowerCase_length] at hle
          have hle2 : editDistance (jsToLowerCase b) (jsToLowerCase a) ≤ (jsToLowerCase b).length := by
            rw [jsToLowerCase_length] ; omega
          have := (@Nat.cast_le ℚ _ _ _).mpr hle2
          linarith
        · positivity

theorem runMax_cons (p : Candidate × ℚ) (l : List (Candidate × ℚ)) (h : ℚ) :
    runMax (p :: l) h = runMax l (max h p.2) := rfl

theorem le_runMax (l : List (Candidate × ℚ)) : ∀ h : ℚ, h ≤ runMax l h := by
  induction l with
  | nil => intro h ; simp [runMax]
  | cons p rest ih =>
    intro h
    rw [runMax_cons]
    exact le_trans (le_max_left h p.2) (ih (max h p.2))

theorem mem_le_runMax (l : List (Candidate × ℚ)) (p : Candidate × ℚ) (hp : p ∈ l) :
    ∀ h : ℚ, p.2 ≤ runMax l h := by
  induction l with
  | nil => cases hp
  | cons q rest ih =>
    intro h
    rw [runMax_cons]
    rcases List.mem_cons.mp hp with hh | ht
    · subst hh
      exact le_trans (le_max_right h p.2) (le_runMax rest (max h p.2))
    · exact ih ht (max h q.2)

theorem foldl_scanStep_snd (l : List (Candidate × ℚ)) :
    ∀ (b : Option Candidate) (h : ℚ), (l.foldl scanStep (b, h)).2 = runMax l h := by
  induction l with
  | nil => intro b h ; simp [runMax]
  | cons p rest ih =>
    intro b h
    rw [List.foldl_cons, runMax_cons]
    by_cases hc : h < p.2
    · have : scanStep (b, h) p = (some p.1, p.2) := by simp [scanStep, hc]
      rw [this, ih, max_eq_right hc.le]
    · have : scanStep (b, h) p = (b, h) := by simp [scanStep, hc]
      rw [this, ih, max_eq_left (not_lt.mp hc)]

theorem foldl_scanStep_keep (l : List (Candidate × ℚ)) :
    ∀ (b : Option Candidate) (h : ℚ), (∀ p ∈ l, p.2 ≤ h) →
      l.foldl scanStep (b, h) = (b, h) := by
  induction l with
  | nil => intro b h _ ; rfl
  | cons p rest ih =>
    intro b h hall
    rw [List.foldl_cons]
    have hp : p.2 ≤ h := hall p (List.mem_cons_self p rest)
    have : scanStep (b, h) p = (b, h) := by simp [scanStep, not_lt.mpr hp]
    rw [this]
    exact ih b h (fun q hq => hall q (List.mem_cons_of_mem p hq))

theorem scanStep_snd_pair (b : Option Candidate) (h : ℚ) (p : Candidate × ℚ) :
    scanStep (b, h) p = ((scanStep (b, h) p).1, max h p.2) := by
  unfold scanStep
  by_cases hc : h < p.2
  · simp [hc, max_eq_right hc.le]
  · simp [hc, max_eq_left (not_lt.mp hc)]

/-- Characterization of the best-match scan: when some comparison beats
the seed, the scan returns exactly the first pair (in scan order) whose
similarity attains the running maximum, together with that maximum. -/
theorem foldl_scanStep_find (l : List (Candidate × ℚ)) :
    ∀ (b : Option Candidate) (h : ℚ), h < runMax l h →
      ∃ p, l.find? (fun q => decide (runMax l h ≤ q.2)) = some p ∧
        p.2 = runMax l h ∧ l.foldl scanStep (b, h) = (some p.1, p.2) := by
  induction l with
  | nil =>
    intro b h hlt
    simp [runMax] at hlt
  | cons p rest ih =>
    intro b h hlt
    by_cases hp : runMax (p :: rest) h ≤ p.2
    · have hmem : p.2 ≤ runMax (p :: rest) h :=
        mem_le_runMax (p :: rest) p (List.mem_cons_self p rest) h
      have heq : p.2 = runMax (p :: rest) h := le_antisymm hmem hp
      have hhp : h < p.2 := by rw [heq] ; exact hlt
      refine ⟨p, ?_, heq, ?_⟩
      · rw [List.find?_cons_of_pos]
        exact decide_eq_true hp
      · rw [List.foldl_cons]
        have hstep : scanStep (b, h) p = (some p.1, p.2) := by simp [scanStep, hhp]
        rw [hstep]
        apply foldl_scanStep_keep
        intro q hq
        calc q.2 ≤ runMax rest (max h p.2) := mem_le_runMax rest q hq (max h p.2)
          _ = runMax (p :: rest) h := rfl
          _ = p.2 := heq.symm
    · push_neg at hp
      have hA : runMax (p :: rest) h = runMax rest (max h p.2) := rfl
      have hlt2 : max h p.2 < runMax rest (max h p.2) := by
        rw [← hA] ; exact max_lt hlt hp
      obtain ⟨q, hfind, hq2, hfold⟩ := ih (scanStep (b, h) p).1 (max h p.2) hlt2
      refine ⟨q, ?_, ?_, ?_⟩
      · rw [List.find?_cons_of_neg]
        · rw [hA] ; exact hfind
        · simp only [decide_eq_true_eq] ; exact not_le.mpr hp
      · rw [hA] ; exact hq2
      · rw [List.foldl_cons, scanStep_snd_pair]
        exact hfold

theorem foldl_flatMap_eq {α β γ : Type} (f : γ → β → γ) (g : α → List β) :
    ∀ (l : List α) (init : γ),
      (l.flatMap g).foldl f init = l.foldl (fun st x => (g x).foldl f st) init := by
  intro l
  induction l with
  | nil => intro init ; rfl
  | cons x xs ih =>
    intro init
    rw [List.flatMap_cons, List.foldl_append, List.foldl_cons, ih]

theorem bestScanTitle_eq_foldl (results : List Candidate) (title : String) :
    bestScanTitle results title =
      (results.map (fun m => (m, stringSimilarity m.title title))).foldl scanStep (none, 0) := by
  unfold bestScanTitle
  rw [List.foldl_map]

/-- `bestScan` is the fold of `scanStep` over the flattened comparison
list `scanPairs`. -/
theorem bestScan_eq_foldl (results : List Candidate) (title : String)
    (synonyms : List String) :
    bestScan results title synonyms =
      (scanPairs results title synonyms).foldl scanStep (none, 0) := by
  unfold bestScan scanPairs
  by_cases hs : synonyms ≠ []
  · rw [if_pos hs, if_pos hs, List.foldl_append, ← bestScanTitle_eq_foldl, foldl_flatMap_eq]
    have hfun : ∀ (st : Option Candidate × ℚ) (x : Candidate),
        (synonyms.map (fun syn => (x, stringSimilarity x.title syn))).foldl scanStep st
          = synonyms.foldl (fun st2 syn => scanStep st2 (x, stringSimilarity x.title syn)) st := by
      intro st x ; rw [List.foldl_map]
    simp only [hfun]
  · rw [if_neg hs, if_neg hs, List.append_nil, ← bestScanTitle_eq_foldl]

theorem synonymLoop_all_empty (search : String → List Candidate) (title : String)
    (synonyms : List String) :
    ∀ l : List String, (∀ t ∈ l, search t = []) →
      synonymLoop search title synonyms l = (none, l) := by
  intro l
  induction l with
  | nil => intro _ ; rfl
  | cons s rest ih =>
    intro hall
    rw [synonymLoop]
    rw [if_neg (by simp [hall s (List.mem_cons_self s rest)])]
    rw [ih (fun t ht => hall t (List.mem_cons_of_mem s ht))]

theorem synonymLoop_first_nonempty (search : String → List Candidate) (title : String)
    (synonyms : List String) :
    ∀ (pre : List String) (s : String) (post : List String),
      (∀ t ∈ pre, search t = []) → search s ≠ [] →
      synonymLoop search title synonyms (pre ++ s :: post) =
        (some (findBestMatch (search s) title synonyms), pre ++ [s]) := by
  intro pre
  induction pre with
  | nil =>
    intro s post _ hs
    rw [List.nil_append, synonymLoop, if_pos hs]
    rfl
  | cons p pre ih =>
    intro s post hall hs
    rw [List.cons_append, synonymLoop]
    rw [if_neg (by simp [hall p (List.mem_cons_self p pre)])]
    rw [ih s post (fun t ht => hall t (List.mem_cons_of_mem p ht)) hs]
    rfl

/-- Behaviour of the search orchestration, split by outcome:
primary search empty with a first succeeding synonym, everything empty,
and primary search non-empty.  The query trace pins down exactly which
searches were issued. -/
theorem searchWithRetry_spec (provider : String) (search : String → List Candidate)
    (title : String) (synonyms : List String) :
    (search title = [] →
      ∀ (pre : List String) (s : String) (post : List String),
        synonyms = pre ++ s :: post → (∀ t ∈ pre, search t = []) → search s ≠ [] →
        searchWithRetry provider search title synonyms =
          (wrapCatch provider (findBestMatch (search s) title synonyms),
            title :: (pre ++ [s]))) ∧
    (search title = [] → (∀ t ∈ synonyms, search t = []) →
      searchWithRetry provider search title synonyms =
        (.error (wrapSearchError provider
            (.thrown ("No matching manga found on " ++ provider ++ " for title: " ++ title))),
          title :: synonyms)) ∧
    (search title ≠ [] →
      searchWithRetry provider search title synonyms =
        (wrapCatch provider (findBestMatch (search title) title synonyms), [title])) := by
  refine ⟨?_, ?_, ?_⟩
  · intro h0 pre s post hsyn hpre hs
    unfold searchWithRetry
    rw [if_pos h0]
    have hne : synonyms ≠ [] := by subst hsyn ; cases pre <;> simp
    rw [if_pos hne, hsyn, synonymLoop_first_nonempty search title (pre ++ s :: post) pre s post hpre hs]
  · intro h0 hall
    unfold searchWithRetry
    rw [if_pos h0]
    by_cases hne : synonyms ≠ []
    · rw [if_pos hne, synonymLoop_all_empty search title synonyms synonyms hall]
    · push_neg at hne
      subst hne
      rw [if_neg (by simp)]
  · intro h0
    unfold searchWithRetry
    rw [if_neg h0]

theorem foldl_preserve {α β : Type} (P : α → Prop) (f : α → β → α)
    (hf : ∀ a b, P a → P (f a b)) :
    ∀ (l : List β) (a : α), P a → P (l.foldl f a) := by
  intro l
  induction l with
  | nil => intro a ha ; exact ha
  | cons x xs ih => intro a ha ; exact ih (f a x) (hf a x ha)

theorem nodup_append_single {l : List String} {a : String} (h : l.Nodup) (ha : a ∉ l) :
    (l ++ [a]).Nodup := by
  rw [List.nodup_append]
  refine ⟨h, List.nodup_singleton a, ?_⟩
  intro x hx hxa
  rw [List.mem_singleton] at hxa
  subst hxa
  exact ha hx

theorem mbMethod1Add_nodup (uniq : List String) (url : String) (h : uniq.Nodup) :
    (mbMethod1Add uniq url).Nodup := by
  unfold mbMethod1Add
  split
  · next hc => exact nodup_append_single h hc.2.2.2.2.2
  · exact h

theorem mbMethod1_nodup (uniq : List String) (m1 : List String) (h : uniq.Nodup) :
    (mbMethod1 uniq m1).Nodup := by
  unfold mbMethod1
  split
  · exact foldl_preserve List.Nodup _
      (fun a b ha => foldl_preserve List.Nodup mbMethod1Add
        (fun a2 b2 ha2 => mbMethod1Add_nodup a2 b2 ha2) _ a ha) m1 uniq h
  · exact h

theorem mbMethod2Src_nodup (uniq : List String) (src : String) (h : uniq.Nodup) :
    (mbMethod2Src uniq src).Nodup := by
  unfold mbMethod2Src
  split
  · split
    · exact foldl_preserve List.Nodup _
        (fun a b ha => by
          split
          · next hc => exact nodup_append_single ha hc.2.2
          · exact ha) _ uniq h
    · split
      · next hc => exact nodup_append_single h hc
      · exact h
  · exact h

theorem mbGuardedAdds_nodup (uniq : List String) (ms : List String) (h : uniq.Nodup) :
    (mbGuardedAdds uniq ms).Nodup := by
  unfold mbGuardedAdds
  exact foldl_preserve List.Nodup _
    (fun a b ha => by
      split
      · next hc => exact nodup_append_single ha hc.2
      · exact ha) ms uniq h

theorem mbGuardStage_nodup (uniq : List String) (ms : List String) (h : uniq.Nodup) :
    (mbGuardStage uniq ms).Nodup := by
  unfold mbGuardStage
  split
  · split
    · exact mbGuardedAdds_nodup uniq ms h
    · exact h
  · exact h

theorem mbMethod6Add_nodup (uniq : List String) (u0 : String) (h : uniq.Nodup) :
    (mbMethod6Add uniq u0).Nodup := by
  unfold mbMethod6Add
  split
  · exact h
  · split
    · next hc => exact nodup_append_single h hc
    · exact h

theorem mbStage6_nodup (uniq : List String) (m6 : List String) (h : uniq.Nodup) :
    (mbStage6 uniq m6).Nodup := by
  unfold mbStage6
  split
  · split
    · exact foldl_preserve List.Nodup mbMethod6Add
        (fun a b ha => mbMethod6Add_nodup a b ha) m6 uniq h
    · exact h
  · exact h

theorem mbUniq_nodup (m1 domSrcs m3 m4 m5 m6 : List String) :
    (mbUniq m1 domSrcs m3 m4 m5 m6).Nodup := by
  unfold mbUniq
  apply mbStage6_nodup
  apply mbGuardStage_nodup
  apply mbGuardStage_nodup
  apply mbGuardStage_nodup
  apply foldl_preserve List.Nodup mbMethod2Src (fun a b ha => mbMethod2Src_nodup a b ha)
  exact mbMethod1_nodup [] m1 List.nodup_nil

theorem mkMethod1Img_nodup (uniq : List String) (attrs : String × String) (h : uniq.Nodup) :
    (mkMethod1Img uniq attrs).Nodup := by
  unfold mkMethod1Img
  split
  · split
    · exact h
    · next hc => exact nodup_append_single h hc
  · exact h

theorem mkMethod2Add_nodup (uniq : List String) (u : String) (h : uniq.Nodup) :
    (mkMethod2Add uniq u).Nodup := by
  unfold mkMethod2Add
  split
  · next hc => exact nodup_append_single h hc.2.2.2.2.2
  · exact h

theorem mkMethod3Add_nodup (uniq : List String) (u : String) (h : uniq.Nodup) :
    (mkMethod3Add uniq u).Nodup := by
  unfold mkMethod3Add
  split
  · next hc => exact nodup_append_single h hc.2
  · exact h

theorem mkStage2_nodup (uniq : List String) (m2 : List String) (h : uniq.Nodup) :
    (mkStage2 uniq m2).Nodup := by
  unfold mkStage2
  split
  · exact foldl_preserve List.Nodup mkMethod2Add
      (fun a b ha => mkMethod2Add_nodup a b ha) m2 uniq h
  · exact h

theorem mkStage3_nodup (uniq : List String) (m3 : List String) (h : uniq.Nodup) :
    (mkStage3 uniq m3).Nodup := by
  unfold mkStage3
  split
  · exact foldl_preserve List.Nodup mkMethod3Add
      (fun a b ha => mkMethod3Add_nodup a b ha) m3 uniq h
  · exact h

theorem mkUniq_nodup (domImgs : List (String × String)) (m2 m3 : List String) :
    (mkUniq domImgs m2 m3).Nodup := by
  unfold mkUniq
  apply mkStage3_nodup
  apply mkStage2_nodup
  exact foldl_preserve List.Nodup mkMethod1Img
    (fun a b ha => mkMethod1Img_nodup a b ha) domImgs [] List.nodup_nil

theorem toPages_map_url (u : List String) : (toPages u).map (fun p => p.url) = u := by
  unfold toPages
  rw [List.map_map]
  have : ((fun p : Page => p.url) ∘ fun p : Nat × String => (⟨p.2, p.1 + 1⟩ : Page))
      = Prod.snd := by
    funext p ; rfl
  rw [this, List.enum_map_snd]

theorem toPages_map_index (u : List String) :
    (toPages u).map (fun p => p.index) = List.range' 1 u.length := by
  unfold toPages
  rw [List.map_map]
  have h1 : ((fun p : Page => p.index) ∘ fun p : Nat × String => (⟨p.2, p.1 + 1⟩ : Page))
      = (fun n => n + 1) ∘ Prod.fst := by
    funext p ; rfl
  rw [h1, ← List.map_map, List.enum_map_fst]
  rw [List.range'_eq_map_range]
  apply List.map_congr_left
  intro n _
  omega

theorem toPages_pairwise (u : List String) :
    (toPages u).Pairwise (fun p q => p.index ≤ q.index) := by
  have h := toPages_map_index u
  have hpw : ((toPages u).map (fun p => p.index)).Pairwise (· ≤ ·) := by
    rw [h]
    exact (List.pairwise_lt_range' 1 u.length).imp le_of_lt
  rw [List.pairwise_map] at hpw
  exact hpw

theorem insertPage_head_le (x y : Page) (rest : List Page) (h : x.index ≤ y.index) :
    insertPage x (y :: rest) = x :: y :: rest := by
  unfold insertPage
  rw [if_pos h]

theorem sortPages_sorted_id :
    ∀ l : List Page, l.Pairwise (fun p q => p.index ≤ q.index) → sortPages l = l := by
  intro l
  induction l with
  | nil => intro _ ; rfl
  | cons p rest ih =>
    intro hp
    have hs : sortPages (p :: rest) = insertPage p (sortPages rest) := rfl
    rw [hs, ih hp.of_cons]
    cases rest with
    | nil => rfl
    | cons q t =>
      exact insertPage_head_le p q t
        (List.rel_of_pairwise_cons hp (List.mem_cons_self q t))

theorem sortPages_toPages (u : List String) : sortPages (toPages u) = toPages u :=
  sortPages_sorted_id (toPages u) (toPages_pairwise u)

theorem mpStage3_of_ne (baseUrl : String) (pages : List Page) (m3 : List String)
    (h : pages ≠ []) : mpStage3 baseUrl pages m3 = pages := by
  unfold mpStage3
  rw [if_neg (by simp [h])]

theorem mpStage4_of_ne (pages : List Page) (m4 : List String) (h : pages ≠ []) :
    mpStage4 pages m4 = pages := by
  unfold mpStage4
  rw [if_neg (by simp [h])]

theorem mpStage5_of_ne (pages : List Page) (m5 : List String) (h : pages ≠ []) :
    mpStage5 pages m5 = pages := by
  unfold mpStage5
  rw [if_neg (by simp [h])]

/-! ## Claim theorems -/

/-- Claim C3 counterexample: `stringSimilarity "" ""` is `0`, not `1.0`
as the claim states — the JS falsiness guard `if (!s1 || !s2) return 0`
catches the both-empty case before the (dead) `longerLength === 0`
branch can return `1.0`; consequently `similarity(a, a) = 1.0` also
fails at `a = ""`. -/
theorem claim_C3_counterexample :
    stringSimilarity "" "" = 0 ∧ stringSimilarity "" "" ≠ 1 := by
  refine ⟨stringSimilarity_both_empty, ?_⟩
  rw [stringSimilarity_both_empty]
  norm_num

/-- Claim C3 (amended): `stringSimilarity` returns 0 whenever either
input is empty — including both empty — and returns `1.0` for every
NON-empty string compared with itself. -/
theorem claim_C3_similarity_empty_self (a b : String) :
    ((a = "" ∨ b = "") → stringSimilarity a b = 0) ∧
    (a ≠ "" → stringSimilarity a a = 1) :=
  ⟨stringSimilarity_empty a b, stringSimilarity_self a⟩

theorem claim_C3_witness :
    ((("ab" : String) = "" ∨ ("" : String) = "") ∧ stringSimilarity "ab" "" = 0) ∧
    ((("ab" : String) ≠ "") ∧ stringSimilarity "ab" "ab" = 1) :=
  ⟨⟨Or.inr rfl, (claim_C3_similarity_empty_self "ab" "").1 (Or.inr rfl)⟩,
   ⟨by decide, (claim_C3_similarity_empty_self "ab" "").2 (by decide)⟩⟩

/-- Claim C4: `editDistance` computes the classic Levenshtein distance
(with unit insertion, deletion and substitution costs, `lev` by its
textbook recurrence) of the case-folded inputs; in particular it is
symmetric. -/
theorem claim_C4_editDistance (a b : String) :
    editDistance a b = lev (jsToLowerCase a).data (jsToLowerCase b).data ∧
    editDistance a b = editDistance b a :=
  ⟨editDistance_eq_lev a b, editDistance_symm a b⟩

/-- Claim C9: `stringSimilarity` is symmetric, including at equal
lengths (where the longer/shorter selection swaps and symmetry of
`editDistance` is what makes the values agree). -/
theorem claim_C9_similarity_symm (a b : String) :
    stringSimilarity a b = stringSimilarity b a :=
  stringSimilarity_comm a b

theorem bestScan_nil (title : String) (synonyms : List String) :
    bestScan [] title synonyms = (none, 0) := by
  unfold bestScan bestScanTitle
  simp

/-- Claim C5 counterexample: on an empty candidate list the mapper.js
`findBestMatch` does fail, but with a `TypeError` (reading `.title` of
`results[0]`, which is `undefined`), not with a designated
no-candidates error such as the one the part_001 version throws. -/
theorem claim_C5_counterexample :
    findBestMatch [] "a" [] = .error .typeErrorUndefined ∧
    JsError.typeErrorUndefined ≠
      JsError.thrown ("No manga results found to match with title: " ++ "a") := by
  constructor
  · unfold findBestMatch
    rw [bestScan_nil, if_pos (Or.inl rfl)]
  · decide

/-- Claim C5 (amended): applied to an empty candidate list,
`findBestMatch` always fails, for any title and alternates — the
mapper.js version with a `TypeError` from the `results[0].title` access,
the part_001 version with the designated
`No manga results found to match with title` error. -/
theorem claim_C5_empty (title : String) (synonyms : List String) :
    findBestMatch [] title synonyms = .error .typeErrorUndefined ∧
    findBestMatchV2 [] title synonyms =
      .error (.thrown ("No manga results found to match with title: " ++ title)) := by
  constructor
  · unfold findBestMatch
    rw [bestScan_nil, if_pos (Or.inl rfl)]
  · unfold findBestMatchV2
    rw [bestScan_nil, if_pos (Or.inl rfl)]

theorem bestScan_snd (results : List Candidate) (title : String) (synonyms : List String) :
    (bestScan results title synonyms).2 = runMax (scanPairs results title synonyms) 0 := by
  rw [bestScan_eq_foldl]
  exact foldl_scanStep_snd (scanPairs results title synonyms) none 0

theorem findBestMatch_below (title : String) (synonyms : List String) (r : Candidate)
    (rs : List Candidate)
    (hlt : runMax (scanPairs (r :: rs) title synonyms) 0 < 3/10) :
    findBestMatch (r :: rs) title synonyms = .ok r := by
  unfold findBestMatch
  rw [if_pos (Or.inr (by rw [bestScan_snd] ; exact hlt))]

theorem findBestMatch_attains (title : String) (synonyms : List String) (r : Candidate)
    (rs : List Candidate)
    (hge : 3/10 ≤ runMax (scanPairs (r :: rs) title synonyms) 0) :
    ∃ p, (scanPairs (r :: rs) title synonyms).find?
        (fun q => decide (runMax (scanPairs (r :: rs) title synonyms) 0 ≤ q.2)) = some p ∧
      p.2 = runMax (scanPairs (r :: rs) title synonyms) 0 ∧
      findBestMatch (r :: rs) title synonyms = .ok p.1 := by
  have h0A : (0 : ℚ) < runMax (scanPairs (r :: rs) title synonyms) 0 :=
    lt_of_lt_of_le (by norm_num) hge
  obtain ⟨p, hfind, hp2, hfold⟩ :=
    foldl_scanStep_find (scanPairs (r :: rs) title synonyms) none 0 h0A
  refine ⟨p, hfind, hp2, ?_⟩
  have hbs : bestScan (r :: rs) title synonyms = (some p.1, p.2) := by
    rw [bestScan_eq_foldl] ; exact hfold
  unfold findBestMatch
  rw [hbs]
  have hcond : ¬(((some p.1, p.2) : Option Candidate × ℚ).1 = none ∨
      ((some p.1, p.2) : Option Candidate × ℚ).2 < 3/10) := by
    rintro (hc | hc)
    · simp at hc
    · rw [hp2] at hc
      exact absurd hc (not_lt.mpr hge)
  rw [if_neg hcond]

theorem findBestMatchV2_below (title : String) (synonyms : List String) (r : Candidate)
    (rs : List Candidate)
    (hlt : runMax (scanPairs (r :: rs) title synonyms) 0 < 2/5) :
    findBestMatchV2 (r :: rs) title synonyms = .ok r := by
  unfold findBestMatchV2
  rw [if_pos (Or.inr (by rw [bestScan_snd] ; exact hlt))]

theorem findBestMatchV2_attains (title : String) (synonyms : List String) (r : Candidate)
    (rs : List Candidate)
    (hge : 2/5 ≤ runMax (scanPairs (r :: rs) title synonyms) 0) :
    ∃ p, (scanPairs (r :: rs) title synonyms).find?
        (fun q => decide (runMax (scanPairs (r :: rs) title synonyms) 0 ≤ q.2)) = some p ∧
      p.2 = runMax (scanPairs (r :: rs) title synonyms) 0 ∧
      findBestMatchV2 (r :: rs) title synonyms = .ok p.1 := by
  have h0A : (0 : ℚ) < runMax (scanPairs (r :: rs) title synonyms) 0 :=
    lt_of_lt_of_le (by norm_num) hge
  obtain ⟨p, hfind, hp2, hfold⟩ :=
    foldl_scanStep_find (scanPairs (r :: rs) title synonyms) none 0 h0A
  refine ⟨p, hfind, hp2, ?_⟩
  have hbs : bestScan (r :: rs) title synonyms = (some p.1, p.2) := by
    rw [bestScan_eq_foldl] ; exact hfold
  unfold findBestMatchV2
  rw [hbs]
  have hcond : ¬(((some p.1, p.2) : Option Candidate × ℚ).1 = none ∨
      ((some p.1, p.2) : Option Candidate × ℚ).2 < 2/5) := by
    rintro (hc | hc)
    · simp at hc
    · rw [hp2] at hc
      exact absurd hc (not_lt.mpr hge)
  rw [if_neg hcond]

/-- Claim C6 counterexample: with primary title `ab` and alternate `cd`,
the candidates `cd` (earlier) and `ab` (later) both attain the global
maximum score 1 — the earlier one via the alternate, the later one via
the primary title — yet `findBestMatch` returns the LATER candidate,
because the main-title pass runs over all candidates before the synonym
pass and replacement needs a strictly greater score.  So "the earliest
candidate winning ties" (in input order) is false. -/
theorem claim_C6_counterexample :
    findBestMatch [⟨"1", "cd"⟩, ⟨"2", "ab"⟩] "ab" ["cd"] = .ok ⟨"2", "ab"⟩ ∧
    stringSimilarity "cd" "cd" = 1 ∧
    stringSimilarity "ab" "ab" = 1 ∧
    runMax (scanPairs [⟨"1", "cd"⟩, ⟨"2", "ab"⟩] "ab" ["cd"]) 0 = 1 ∧
    (⟨"2", "ab"⟩ : Candidate) ≠ ⟨"1", "cd"⟩ := by
  refine ⟨by with_unfolding_all rfl, ?_, ?_, ?_, ?_⟩ <;> with_unfolding_all decide

/-- Claim C6 (amended): for a non-empty candidate list, when the
maximum similarity over all scanned comparisons (primary title and all
alternates) is below the cutoff (0.3 in mapper.js, 0.4 in part_001),
`findBestMatch` returns the first candidate rather than failing; when
the maximum reaches the cutoff, the returned candidate is the one of
the FIRST comparison IN SCAN ORDER attaining the maximum (the whole
main-title pass precedes the synonym pass), which attains the global
maximum but need not be the earliest candidate in input order. -/
theorem claim_C6_selector (title : String) (synonyms : List String) (r : Candidate)
    (rs : List Candidate) :
    (runMax (scanPairs (r :: rs) title synonyms) 0 < 3/10 →
      findBestMatch (r :: rs) title synonyms = .ok r) ∧
    (3/10 ≤ runMax (scanPairs (r :: rs) title synonyms) 0 →
      ∃ p, (scanPairs (r :: rs) title synonyms).find?
          (fun q => decide (runMax (scanPairs (r :: rs) title synonyms) 0 ≤ q.2)) = some p ∧
        p.2 = runMax (scanPairs (r :: rs) title synonyms) 0 ∧
        findBestMatch (r :: rs) title synonyms = .ok p.1) ∧
    (runMax (scanPairs (r :: rs) title synonyms) 0 < 2/5 →
      findBestMatchV2 (r :: rs) title synonyms = .ok r) ∧
    (2/5 ≤ runMax (scanPairs (r :: rs) title synonyms) 0 →
      ∃ p, (scanPairs (r :: rs) title synonyms).find?
          (fun q => decide (runMax (scanPairs (r :: rs) title synonyms) 0 ≤ q.2)) = some p ∧
        p.2 = runMax (scanPairs (r :: rs) title synonyms) 0 ∧
        findBestMatchV2 (r :: rs) title synonyms = .ok p.1) :=
  ⟨findBestMatch_below title synonyms r rs,
   findBestMatch_attains title synonyms r rs,
   findBestMatchV2_below title synonyms r rs,
   findBestMatchV2_attains title synonyms r rs⟩

theorem claim_C6_witness :
    (runMax (scanPairs [⟨"1", "ab"⟩] "zz" []) 0 < 3/10 ∧
      findBestMatch [⟨"1", "ab"⟩] "zz" [] = .ok ⟨"1", "ab"⟩) ∧
    (3/10 ≤ runMax (scanPairs [⟨"1", "ab"⟩] "ab" []) 0 ∧
      ∃ p, (scanPairs [⟨"1", "ab"⟩] "ab" []).find?
          (fun q => decide (runMax (scanPairs [⟨"1", "ab"⟩] "ab" []) 0 ≤ q.2)) = some p ∧
        p.2 = runMax (scanPairs [⟨"1", "ab"⟩] "ab" []) 0 ∧
        findBestMatch [⟨"1", "ab"⟩] "ab" [] = .ok p.1) :=
  ⟨⟨by with_unfolding_all decide,
    (claim_C6_selector "zz" [] ⟨"1", "ab"⟩ []).1 (by with_unfolding_all decide)⟩,
   ⟨by with_unfolding_all decide,
    (claim_C6_selector "ab" [] ⟨"1", "ab"⟩ []).2.1 (by with_unfolding_all decide)⟩⟩

theorem toPages_length (u : List String) : (toPages u).length = u.length := by
  unfold toPages
  rw [List.length_map, List.enum_length]

/-- Claim C7: in the provider search orchestration (`searchAsuraScans`
and `searchMangaPark`), if the primary-title search yields zero results
the alternates are searched in order and the chain stops at the first
alternate with at least one result — the query trace is exactly the
title followed by the failing prefix and that one alternate, so no later
alternate is ever searched — and only if the title and every alternate
yield zero results does the call fail with the no-listing error (wrapped
by the catch block with provider context). -/
theorem claim_C7_retry_chain (search : String → List Candidate) (title s : String)
    (synonyms pre post : List String) :
    (search title = [] → synonyms = pre ++ s :: post → (∀ t ∈ pre, search t = []) →
      search s ≠ [] →
      searchAsuraScans search title synonyms =
          (wrapCatch "AsuraScans" (findBestMatch (search s) title synonyms),
            title :: (pre ++ [s])) ∧
        searchMangaPark search title synonyms =
          (wrapCatch "MangaPark" (findBestMatch (search s) title synonyms),
            title :: (pre ++ [s]))) ∧
    (search title = [] → (∀ t ∈ synonyms, search t = []) →
      searchAsuraScans search title synonyms =
          (.error (wrapSearchError "AsuraScans"
              (.thrown ("No matching manga found on AsuraScans for title: " ++ title))),
            title :: synonyms) ∧
        searchMangaPark search title synonyms =
          (.error (wrapSearchError "MangaPark"
              (.thrown ("No matching manga found on MangaPark for title: " ++ title))),
            title :: synonyms)) :=
  ⟨fun h0 hsyn hpre hs =>
    ⟨(searchWithRetry_spec "AsuraScans" search title synonyms).1 h0 pre s post hsyn hpre hs,
     (searchWithRetry_spec "MangaPark" search title synonyms).1 h0 pre s post hsyn hpre hs⟩,
   fun h0 hall =>
    ⟨(searchWithRetry_spec "AsuraScans" search title synonyms).2.1 h0 hall,
     (searchWithRetry_spec "MangaPark" search title synonyms).2.1 h0 hall⟩⟩

theorem claim_C7_witness :
    (demoSearch "t0" = [] ∧
      (["s1", "s2", "s3"] : List String) = ["s1"] ++ "s2" :: ["s3"] ∧
      (∀ t ∈ (["s1"] : List String), demoSearch t = []) ∧ demoSearch "s2" ≠ []) ∧
    searchAsuraScans demoSearch "t0" ["s1", "s2", "s3"] =
      (wrapCatch "AsuraScans" (findBestMatch (demoSearch "s2") "t0" ["s1", "s2", "s3"]),
        "t0" :: (["s1"] ++ ["s2"])) ∧
    searchMangaPark demoSearch "t0" ["s1", "s2", "s3"] =
      (wrapCatch "MangaPark" (findBestMatch (demoSearch "s2") "t0" ["s1", "s2", "s3"]),
        "t0" :: (["s1"] ++ ["s2"])) := by
  have h := (claim_C7_retry_chain demoSearch "t0" "s2" ["s1", "s2", "s3"] ["s1"] ["s3"]).1
    (by decide) rfl (by decide) (by decide)
  exact ⟨⟨by decide, rfl, by decide, by decide⟩, h.1, h.2⟩

/-- Claim C1 counterexample: in MangaPark `fetchChapterPages`, method 2
(the CDN-domain regex) is NOT guarded by `pages.length === 0`, so its
matches are appended even when strategy 1 (JSON-shaped `"url"` tokens)
already yielded a page: with one strategy-1 URL alone the output is that
single page, but adding one strategy-2 CDN URL makes the output mix
non-empty results of two different strategies. -/
theorem claim_C1_counterexample :
    mangaParkFetchPages "https://mangapark.net" ["https://example.com/p1.jpg"] [] [] [] [] =
      [⟨"https://example.com/p1.jpg", 1⟩] ∧
    mangaParkFetchPages "https://mangapark.net" ["https://example.com/p1.jpg"]
        ["https://s.mpabc.org/media/p2.jpg"] [] [] [] =
      [⟨"https://example.com/p1.jpg", 1⟩, ⟨"https://s.mpabc.org/media/p2.jpg", 2⟩] := by
  constructor
  · with_unfolding_all rfl
  · with_unfolding_all rfl

/-- Claim C1 (amended): only strategies 3, 4 and 5 of MangaPark
`fetchChapterPages` are guarded by `pages.length === 0`; strategy 2
appends to the strategy-1 output unconditionally.  Hence the
first-nonempty cascade holds from stage 3 on: whenever strategies 1+2
together yield at least one page, strategies 3-5 contribute nothing and
the output is exactly the sorted stage-1+2 page list. -/
theorem claim_C1_guarded_cascade (baseUrl : String) (m1 m2 m3 m4 m5 : List String)
    (h : mpStage12 m1 m2 ≠ []) :
    mangaParkFetchPages baseUrl m1 m2 m3 m4 m5 = sortPages (mpStage12 m1 m2) := by
  unfold mangaParkFetchPages
  rw [mpStage3_of_ne baseUrl _ m3 h, mpStage4_of_ne _ m4 h, mpStage5_of_ne _ m5 h]

theorem claim_C1_witness :
    mpStage12 ["https://example.com/p1.jpg"] [] ≠ [] ∧
    mangaParkFetchPages "https://mangapark.net" ["https://example.com/p1.jpg"] []
        ["https://c.com/a.jpg"] ["https://c.com/b.jpg"] ["https://c.com/c.jpg"] =
      sortPages (mpStage12 ["https://example.com/p1.jpg"] []) :=
  ⟨by with_unfolding_all decide,
   claim_C1_guarded_cascade "https://mangapark.net" ["https://example.com/p1.jpg"] []
     ["https://c.com/a.jpg"] ["https://c.com/b.jpg"] ["https://c.com/c.jpg"]
     (by with_unfolding_all decide)⟩

/-- Claim C8: every page list returned by the MangaBuddy and MangaKakalot
`fetchChapterPages` has pairwise-distinct URLs, and its index values are
exactly 1, 2, ..., n in first-seen order (hence contiguous and sorted
ascending); concretely, a URL appearing both in a comma-separated list
match and in a DOM `data-src` attribute yields exactly one page record. -/
theorem claim_C8_pages_invariant (m1 domSrcs m3 m4 m5 m6 : List String)
    (domImgs : List (String × String)) (k2 k3 : List String) :
    (((mangaBuddyFetchPages m1 domSrcs m3 m4 m5 m6).map (fun p => p.url)).Nodup ∧
      (mangaBuddyFetchPages m1 domSrcs m3 m4 m5 m6).map (fun p => p.index) =
        List.range' 1 (mangaBuddyFetchPages m1 domSrcs m3 m4 m5 m6).length) ∧
    (((mangaKakalotFetchPages domImgs k2 k3).map (fun p => p.url)).Nodup ∧
      (mangaKakalotFetchPages domImgs k2 k3).map (fun p => p.index) =
        List.range' 1 (mangaKakalotFetchPages domImgs k2 k3).length) ∧
    mangaBuddyFetchPages ["https://h.com/a.jpg,https://h.com/b.jpg"]
        ["https://h.com/a.jpg"] [] [] [] [] =
      [⟨"https://h.com/a.jpg", 1⟩, ⟨"https://h.com/b.jpg", 2⟩] := by
  refine ⟨⟨?_, ?_⟩, ⟨?_, ?_⟩, ?_⟩
  · unfold mangaBuddyFetchPages
    rw [sortPages_toPages, toPages_map_url]
    exact mbUniq_nodup m1 domSrcs m3 m4 m5 m6
  · unfold mangaBuddyFetchPages
    rw [sortPages_toPages, toPages_map_index, toPages_length]
  · unfold mangaKakalotFetchPages
    rw [sortPages_toPages, toPages_map_url]
    exact (mkUniq_nodup domImgs k2 k3).filter mkPageFilter
  · unfold mangaKakalotFetchPages
    rw [sortPages_toPages, toPages_map_index, toPages_length]
  · with_unfolding_all rfl

/-- Claim C2 counterexample: with extracted chapters numbered 1, 2, 5
(count 3, observed maximum 5) the generation guard
`extractedChapters.length < highestChapterNum / 2` is `3 < 2.5`, which
is FALSE — so no chapters are synthesized at all: the output is just the
extracted chapters sorted descending, with no `generated` record. -/
theorem claim_C2_counterexample :
    assembleChapters "https://mangapark.net" "m1" chapterMap125 =
      [mpCh "5", mpCh "2", mpCh "1"] ∧
    (assembleChapters "https://mangapark.net" "m1" chapterMap125).all
      (fun ch => !ch.generated) = true ∧
    genCh 3 ∉ assembleChapters "https://mangapark.net" "m1" chapterMap125 ∧
    genCh 4 ∉ assembleChapters "https://mangapark.net" "m1" chapterMap125 := by
  refine ⟨by with_unfolding_all rfl, by with_unfolding_all decide,
    by with_unfolding_all decide, by with_unfolding_all decide⟩

/-- Claim C2 (amended): because the generation guard is
`extractedChapters.length < highestChapterNum / 2`, extracted chapters
{1,2,5} (count 3, max 5) trigger NO synthesis — the output is the three
extracted chapters sorted descending — while {1,5} (count 2 < 2.5) does:
chapters 2, 3 and 4 are synthesized, each with `generated = true` and
`date = "Unknown"`; with {1,2,3,4,5} (no gap, guard false) nothing is
added either. -/
theorem claim_C2_gap_filling :
    assembleChapters "https://mangapark.net" "m1" chapterMap125 =
      [mpCh "5", mpCh "2", mpCh "1"] ∧
    assembleChapters "https://mangapark.net" "m1" chapterMap15 =
      [mpCh "5", genCh 4, genCh 3, genCh 2, mpCh "1"] ∧
    assembleChapters "https://mangapark.net" "m1" chapterMap12345 =
      [mpCh "5", mpCh "4", mpCh "3", mpCh "2", mpCh "1"] ∧
    (genCh 2).generated = true ∧ (genCh 2).date = "Unknown" ∧
    (genCh 3).generated = true ∧ (genCh 3).date = "Unknown" ∧
    (genCh 4).generated = true ∧ (genCh 4).date = "Unknown" := by
  refine ⟨by with_unfolding_all rfl, by with_unfolding_all rfl,
    by with_unfolding_all rfl, rfl, rfl, rfl, rfl, rfl, rfl⟩

/-- Claim C10: MangaBuddy `getMangaInfo` fabricates its whole chapter
list from the single extracted latest-chapter count `n`: exactly `n`
records, numbered `n` down to `1` descending, the latest dated `Recent`
and every other dated `Unknown`, and none of them carries
`generated = true`. -/
theorem claim_C10_fabricated (baseUrl mangaId : String) (n : Nat) :
    (mangaBuddyChapters baseUrl mangaId n).length = n ∧
    (mangaBuddyChapters baseUrl mangaId n).map (fun ch => ch.number) =
      (List.range n).map (fun i => toString (n - i)) ∧
    (mangaBuddyChapters baseUrl mangaId n).map (fun ch => ch.date) =
      (List.range n).map (fun i => if i = 0 then "Recent" else "Unknown") ∧
    (mangaBuddyChapters baseUrl mangaId n).all (fun ch => !ch.generated) = true := by
  refine ⟨?_, ?_, ?_, ?_⟩
  · unfold mangaBuddyChapters
    rw [List.length_map, List.length_range]
  · unfold mangaBuddyChapters
    rw [List.map_map]
    rfl
  · unfold mangaBuddyChapters
    rw [List.map_map]
    apply List.map_congr_left
    intro i hi
    rw [List.mem_range] at hi
    by_cases h0 : i = 0
    · subst h0
      simp [Function.comp]
    · have hne : n - i ≠ n := by omega
      simp [Function.comp, hne, h0]
  · unfold mangaBuddyChapters
    rw [List.all_eq_true]
    intro ch hch
    rw [List.mem_map] at hch
    obtain ⟨i, _, rfl⟩ := hch
    rfl
